import Mathlib

/-!
Shallow embedding of the virtual-grid component (`src/unnamed/part_000`,
a single-file Vue component) together with the utility module
(`src/utils.ts`).  JavaScript numbers are modelled as rationals (`ℚ`)
where the source computes with fractional pixel values, and as integers
(`ℤ`) where the source produces integral values (`Math.floor`,
`Math.round`).  `Math.floor` is `Int.floor` / `Int.ediv`, and
`Math.round x` is `round x = ⌊x + 1/2⌋`, which agrees with JavaScript
`Math.round` on all rationals.  Nullable parameters (`x: T | null` or a
source-level `=== null` guard on a parameter) are modelled as `Option`.
-/

namespace VirtualGrid

/-- An element's width and height (interface `ElementSize`, lines 20-23). -/
structure ElementSize where
  width : ℚ
  height : ℚ
  deriving Repr, DecidableEq

/-- A scroll position (interface `ElementScroll`, lines 25-28). -/
structure ElementScroll where
  x : ℚ
  y : ℚ
  deriving Repr, DecidableEq

/-- Snapshot of the container geometry (interface `ContainerData`, lines 13-18).
All four fields are non-nullable in the source interface and at every
construction site (lines 70-75 and 190-201). -/
structure ContainerData where
  size : ElementSize
  scroll : ElementScroll
  elementOffset : ℚ
  elementSize : ElementSize
  deriving Repr, DecidableEq

/-- Modelled from the spec: the `Item` interface lives in `src/types.ts`,
which is not present under `src/`.  Spec section 3 describes it as an
identifier, optional natural width, natural height, an integer column
span (≤ 0 meaning full row), a new-row flag and an opaque rendering
payload; the component accesses exactly the fields `id`, `width`,
`height`, `columnSpan`, `newRow` and the payload (`renderComponent`). -/
structure Item (P : Type) where
  id : ℕ
  width : Option ℚ
  height : ℚ
  columnSpan : ℤ
  newRow : Bool
  payload : P
  deriving Repr, DecidableEq

/-- Derived per-pass configuration (interface `ConfigData`, lines 30-35). -/
structure ConfigData (P : Type) where
  windowMargin : ℚ
  gridGap : ℚ
  columnCount : ℤ
  entries : List (Item P)
  deriving Repr, DecidableEq

/-- An `Item` augmented with computed placement fields (interface `Cell`,
lines 37-41); `height` and `columnSpan` are the recomputed values that the
spread at line 302 overwrites. -/
structure Cell (P : Type) where
  id : ℕ
  width : Option ℚ
  newRow : Bool
  payload : P
  height : ℤ
  columnSpan : ℤ
  columnNumber : ℤ
  rowNumber : ℤ
  offset : ℚ
  deriving Repr, DecidableEq

/-- Result of the grid packer (interface `LayoutData`, lines 43-46). -/
structure LayoutData (P : Type) where
  totalHeight : ℚ
  cells : List (Cell P)
  deriving Repr, DecidableEq

/-- Result of the viewport windower (interface `RenderData`, lines 48-52);
the two row fields are `null`-initialized in the source (lines 319-320),
hence `Option`. -/
structure RenderData (P : Type) where
  cellsToRender : List (Cell P)
  firstRenderedRowNumber : Option ℤ
  firstRenderedRowOffset : Option ℚ
  deriving Repr, DecidableEq

/-- `utils.ts` lines 32-38: `execFunc` returns non-function arguments
unchanged; every call site in the component passes an already-computed
number, so it is the identity here. -/
def execFunc {α : Type} (x : α) : α := x

/-- Lines 142-144: `getColumnCount = Math.floor(elementWidth / 250)`. -/
def getColumnCount (elementWidth : ℚ) : ℤ :=
  ⌊elementWidth / 250⌋

/-- Lines 146-152: `getGridGap`. -/
def getGridGap (elementWidth windowHeight : ℚ) : ℚ :=
  if 720 < elementWidth ∧ 480 < windowHeight then 10 else 5

/-- Lines 154-156: `getWindowMargin = Math.round(windowHeight * 1.5)`. -/
def getWindowMargin (windowHeight : ℚ) : ℤ :=
  round (windowHeight * (3 / 2))

/-- Lines 158-161: `getItemRatioHeight = Math.round(columnWidth * height / width)`. -/
def getItemRatioHeight (height width columnWidth : ℚ) : ℤ :=
  round (columnWidth * (height / width))

/-- Lines 361-370: `getColumnWidth`, whose parameters are declared
`number | null` and which returns `null` when any input is `null`. -/
def getColumnWidth (columnCount gridGap elementWidth : Option ℚ) : Option ℤ :=
  match columnCount, gridGap, elementWidth with
  | some cc, some gap, some w => some (round ((w - (cc - 1) * gap) / cc))
  | _, _, _ => none

/-- Lines 203-244: `computeConfigData`.  The source checks
`containerData === null || items === null`, so both parameters are
`Option`; `containerData.elementSize` is a present record in every
`ContainerData` (its interface type is non-nullable), so the truthiness
guard at line 213 always takes the first branch.  In the per-item branch
where `item.width` is set, `columnWidth * item.columnSpan` coerces a
`null` column width to `0` in JavaScript, modelled by `Option.getD 0`. -/
def computeConfigData {P : Type} (containerData : Option ContainerData)
    (items : Option (List (Item P))) : ConfigData P :=
  match containerData, items with
  | none, _ => { windowMargin := 0, gridGap := 0, columnCount := 1, entries := [] }
  | _, none => { windowMargin := 0, gridGap := 0, columnCount := 1, entries := [] }
  | some cd, some its =>
    let elementWidth : ℚ := cd.elementSize.width
    let windowMargin : ℤ := execFunc (getWindowMargin cd.size.height)
    let gridGap : ℚ := execFunc (getGridGap elementWidth cd.size.height)
    let columnCount : ℤ := getColumnCount elementWidth
    let columnWidth : Option ℤ :=
      getColumnWidth (some (columnCount : ℚ)) (some gridGap) (some elementWidth)
    let entries : List (Item P) := its.map (fun item =>
      -- line 225: `if (!item.width)` — falsy for both `null` and `0`
      match item.width with
      | none => item
      | some w =>
        if w = 0 then item
        else
          let imageWidth : ℚ :=
            ((columnWidth.getD 0 : ℤ) : ℚ) * (item.columnSpan : ℚ)
              + gridGap * ((item.columnSpan : ℚ) - 1)
          { item with
              height := ((execFunc (getItemRatioHeight item.height w imageWidth) : ℤ) : ℚ),
              width := some imageWidth })
    { windowMargin := (windowMargin : ℚ), gridGap := gridGap,
      columnCount := columnCount, entries := entries }

/-! ## Grid packer (`computeLayoutData`, lines 246-308)

The source iterates `configData.entries.map(...)` over the entries while
mutating four locals (`currentRowNumber`, `prevRowsTotalHeight`,
`currentRowMaxHeight`, `columnShift`); this is transcribed as an indexed
fold over a `LayoutState`.  The per-entry body (lines 257-303) is split
into the `step*` definitions below, each annotated with its source
lines.  `%` and `/` on `ℤ` are Euclidean; they agree with JavaScript
`%` and `Math.floor` of the real quotient whenever the dividend is
non-negative and `columnCount` is positive, which the invariance proofs
show is the reachable regime for `columnCount ≥ 1` (for
`columnCount ≤ 0` JavaScript produces `NaN` placements; no claim
constrains those numeric values). -/

/-- The four mutable locals of `computeLayoutData` (lines 251-255). -/
structure LayoutState where
  currentRowNumber : ℤ
  prevRowsTotalHeight : ℚ
  currentRowMaxHeight : ℤ
  columnShift : ℤ
  deriving Repr, DecidableEq

/-- Lines 263-266: a column span below 1 is treated as full width. -/
def stepSpanInit {P : Type} (cfg : ConfigData P) (e : Item P) : ℤ :=
  if e.columnSpan < 1 then cfg.columnCount else e.columnSpan

/-- Lines 268-271: pad out the rest of the current row when the entry
forces a new row and `(index + columnShift) % columnCount ≠ 0`. -/
def stepShiftA {P : Type} (cfg : ConfigData P) (i sh : ℤ) (e : Item P) : ℤ :=
  if e.newRow = true ∧ (i + sh) % cfg.columnCount ≠ 0 then
    sh + (cfg.columnCount - (i + sh) % cfg.columnCount)
  else sh

/-- Line 273: the shifted index. -/
def stepShiftedIndex {P : Type} (cfg : ConfigData P) (i sh : ℤ) (e : Item P) : ℤ :=
  i + stepShiftA cfg i sh e

/-- Line 274: `columnNumber = (shiftedIndex % columnCount) + 1`. -/
def stepColumnNumber {P : Type} (cfg : ConfigData P) (i sh : ℤ) (e : Item P) : ℤ :=
  stepShiftedIndex cfg i sh e % cfg.columnCount + 1

/-- Line 275: `rowNumber = Math.floor(shiftedIndex / columnCount) + 1`. -/
def stepRowNumber {P : Type} (cfg : ConfigData P) (i sh : ℤ) (e : Item P) : ℤ :=
  stepShiftedIndex cfg i sh e / cfg.columnCount + 1

/-- Line 279: the number of columns by which the entry overflows the grid. -/
def stepOverlap {P : Type} (cfg : ConfigData P) (i sh : ℤ) (e : Item P) : ℤ :=
  stepColumnNumber cfg i sh e + stepSpanInit cfg e - cfg.columnCount - 1

/-- Lines 278-284: the recomputed span after overflow clipping. -/
def stepSpan {P : Type} (cfg : ConfigData P) (i sh : ℤ) (e : Item P) : ℤ :=
  if cfg.columnCount + 1 < stepColumnNumber cfg i sh e + stepSpanInit cfg e then
    stepSpanInit cfg e - stepOverlap cfg i sh e
  else stepSpanInit cfg e

/-- Lines 278-284: the recomputed (pre-rounding) height after overflow
clipping, shrunk by the factor `1 - overlap / columnSpan`. -/
def stepHeight {P : Type} (cfg : ConfigData P) (i sh : ℤ) (e : Item P) : ℚ :=
  if cfg.columnCount + 1 < stepColumnNumber cfg i sh e + stepSpanInit cfg e then
    e.height * (1 - (stepOverlap cfg i sh e : ℚ) / (stepSpanInit cfg e : ℚ))
  else e.height

/-- Lines 287-289: a multi-column entry reserves its extra columns. -/
def stepShiftB {P : Type} (cfg : ConfigData P) (i sh : ℤ) (e : Item P) : ℤ :=
  if 1 < stepSpan cfg i sh e then
    stepShiftA cfg i sh e + (stepSpan cfg i sh e - 1)
  else stepShiftA cfg i sh e

/-- Lines 291-297: `prevRowsTotalHeight` after closing the previous row if
the row number changed; the cell's `offset` reads this value. -/
def stepPrev {P : Type} (cfg : ConfigData P) (s : LayoutState) (rowN : ℤ) : ℚ :=
  if rowN ≠ s.currentRowNumber then
    s.prevRowsTotalHeight + (s.currentRowMaxHeight : ℚ) + cfg.gridGap
  else s.prevRowsTotalHeight

/-- Lines 291-295: `currentRowMaxHeight` is reset to 0 on a row change. -/
def stepRowMaxBase (s : LayoutState) (rowN : ℤ) : ℤ :=
  if rowN ≠ s.currentRowNumber then 0 else s.currentRowMaxHeight

/-- Lines 291-292: `currentRowNumber` after the entry. -/
def stepCurrentRow (s : LayoutState) (rowN : ℤ) : ℤ :=
  if rowN ≠ s.currentRowNumber then rowN else s.currentRowNumber

/-- Lines 257-303: the loop body, producing the cell
(`{...entry, columnNumber, rowNumber, offset, height, columnSpan}`, line
302) and the updated locals. -/
def layoutStep {P : Type} (cfg : ConfigData P) (i : ℤ) (s : LayoutState)
    (e : Item P) : Cell P × LayoutState :=
  ({ id := e.id, width := e.width, newRow := e.newRow, payload := e.payload,
     height := round (stepHeight cfg i s.columnShift e),
     columnSpan := stepSpan cfg i s.columnShift e,
     columnNumber := stepColumnNumber cfg i s.columnShift e,
     rowNumber := stepRowNumber cfg i s.columnShift e,
     offset := stepPrev cfg s (stepRowNumber cfg i s.columnShift e) },
   { currentRowNumber := stepCurrentRow s (stepRowNumber cfg i s.columnShift e),
     prevRowsTotalHeight := stepPrev cfg s (stepRowNumber cfg i s.columnShift e),
     currentRowMaxHeight :=
       max (stepRowMaxBase s (stepRowNumber cfg i s.columnShift e))
         (round (stepHeight cfg i s.columnShift e)),
     columnShift := stepShiftB cfg i s.columnShift e })

/-- The indexed fold over the entries (the `map` at line 257). -/
def layoutCells {P : Type} (cfg : ConfigData P) :
    List (Item P) → ℤ → LayoutState → List (Cell P) × LayoutState
  | [], _, s => ([], s)
  | e :: l, i, s =>
    let st := layoutStep cfg i s e
    let rest := layoutCells cfg l (i + 1) st.2
    (st.1 :: rest.1, rest.2)

/-- Lines 246-308: `computeLayoutData`; the parameter is `Option` because
of the `configData === null` guard at line 247, and
`totalHeight = prevRowsTotalHeight + currentRowMaxHeight` (line 305). -/
def computeLayoutData {P : Type} (configData : Option (ConfigData P)) :
    LayoutData P :=
  match configData with
  | none => { totalHeight := 0, cells := [] }
  | some cfg =>
    let r := layoutCells cfg cfg.entries 0
      { currentRowNumber := 1, prevRowsTotalHeight := 0,
        currentRowMaxHeight := 0, columnShift := 0 }
    { totalHeight := r.2.prevRowsTotalHeight + (r.2.currentRowMaxHeight : ℚ),
      cells := r.1 }

/-! ## Viewport windower (`computeRenderData`, lines 310-357) -/

/-- Lines 326-340: a cell is pushed unless its top is past the extended
band's bottom or its bottom is before the band's top.  Equivalently, the
cell's closed vertical interval meets the closed extended band. -/
def cellIncluded {P : Type} (cfg : ConfigData P) (cd : ContainerData)
    (c : Cell P) : Bool :=
  decide (cd.elementOffset + c.offset
      ≤ cd.scroll.y + cd.size.height + cfg.windowMargin)
    && decide (cd.scroll.y - cfg.windowMargin
      ≤ cd.elementOffset + c.offset + (c.height : ℚ))

/-- Lines 325-353: the `for` loop over the packed cells, threading the
`firstRenderedRowNumber` / `firstRenderedRowOffset` accumulators.  The
offset accumulator uses the source's truthiness test (line 347): a
stored offset of `0` is falsy, so it is overwritten rather than
min-combined. -/
def renderLoop {P : Type} (cfg : ConfigData P) (cd : ContainerData) :
    List (Cell P) → Option ℤ → Option ℚ →
      List (Cell P) × Option ℤ × Option ℚ
  | [], frn, fro => ([], frn, fro)
  | cell :: rest, frn, fro =>
    let cellTop := cd.elementOffset + cell.offset
    let cellBottom := cellTop + (cell.height : ℚ)
    let renderTop := cd.scroll.y - cfg.windowMargin
    let renderBottom := cd.scroll.y + cd.size.height + cfg.windowMargin
    if renderBottom < cellTop ∨ cellBottom < renderTop then
      renderLoop cfg cd rest frn fro
    else
      let frn2 : Option ℤ := match frn with
        | none => some cell.rowNumber
        | some r => some r
      let fro2 : Option ℚ := if frn2 = some cell.rowNumber then
          (match fro with
           | none => some cell.offset
           | some v => if v = 0 then some cell.offset else some (min v cell.offset))
        else fro
      let r := renderLoop cfg cd rest frn2 fro2
      (cell :: r.1, r.2)

/-- Lines 310-357: `computeRenderData`.  The first two parameters carry
the `layoutData === null || configData === null` guard (line 315);
`containerData.elementOffset` is a non-nullable number, so the guard at
line 322 always enters the loop. -/
def computeRenderData {P : Type} (configData : Option (ConfigData P))
    (containerData : ContainerData) (layoutData : Option (LayoutData P)) :
    RenderData P :=
  match layoutData, configData with
  | none, _ =>
    { cellsToRender := [], firstRenderedRowNumber := some 0,
      firstRenderedRowOffset := some 0 }
  | _, none =>
    { cellsToRender := [], firstRenderedRowNumber := some 0,
      firstRenderedRowOffset := some 0 }
  | some ld, some cfg =>
    let r := renderLoop cfg containerData ld.cells none none
    { cellsToRender := r.1, firstRenderedRowNumber := r.2.1,
      firstRenderedRowOffset := r.2.2 }

/-! ## Loading state machine (lines 125-188, 385-388)

`loadMoreDataAsync` re-samples the container geometry, checks the
trigger condition, and while it holds sets `updateLock`, awaits the
external `updateFunction`, records a terminal batch in `bottomReached`,
releases the lock and recurses.  The embedding runs this protocol over
two environment streams: the geometry snapshots successive
`computeContainerData` calls would observe, and the outcomes of
successive `updateFunction` invocations (`await` can resolve with a
boolean or reject).  Each protocol iteration consumes one fetch
outcome, so the run is structurally recursive on the outcome stream; an
exhausted stream models a still-pending fetch, which ends the run with
the lock held (the accepted hung-fetch limitation).  A rejected fetch
makes the whole async call reject: the statements after the `await`
(lines 179-185), including `updateLock = false`, are skipped, and
`loadMoreData` (lines 132-140) only catches and logs the rejection. -/

/-- The component state read and written by the loading protocol:
`updateLock` (line 64), `bottomReached` (line 66) and the current
geometry snapshot (lines 70-75). -/
structure LoadState where
  updateLock : Bool
  bottomReached : Bool
  containerData : ContainerData
  deriving Repr, DecidableEq

/-- Outcome of one `await this.updateFunction()`: resolution with the
is-last-batch boolean, or rejection. -/
inductive FetchResult where
  | ok (isLastBatch : Bool)
  | error
  deriving Repr, DecidableEq

/-- Trace record of one `updateFunction` invocation: the lock value when
the trigger condition was evaluated, the lock value at the moment of the
invocation, and the outcome (`none` while still in flight). -/
structure FetchCall where
  lockBeforeAttempt : Bool
  lockAtInvocation : Bool
  result : Option FetchResult
  deriving Repr, DecidableEq

/-- Result of running the protocol: final state, unconsumed environment
streams, the trace of fetch invocations, and whether the async call
rejected. -/
structure LoadRun where
  state : LoadState
  geoms : List ContainerData
  fetches : List FetchResult
  calls : List FetchCall
  rejected : Bool
  deriving Repr, DecidableEq

/-- One `computeContainerData()` call (lines 190-201): observe the next
DOM snapshot; when the stream is exhausted (or `ref` is `null`, line
191) the previous snapshot is kept. -/
def sampleGeometry : List ContainerData → ContainerData → ContainerData × List ContainerData
  | [], cd => (cd, [])
  | g :: rest, _ => (g, rest)

/-- Lines 168-171: `bottomTrigger = Math.max(0, elementOffset +
elementSize.height - updateTriggerMargin)`. -/
def bottomTrigger (margin : ℚ) (cd : ContainerData) : ℚ :=
  max 0 (cd.elementOffset + cd.elementSize.height - margin)

/-- Line 173: `!bottomReached && windowBottom >= bottomTrigger &&
!updateLock`, where `windowBottom = scroll.y + size.height`. -/
def loadCondition (margin : ℚ) (s : LoadState) : Bool :=
  !s.bottomReached
    && decide (bottomTrigger margin s.containerData
        ≤ s.containerData.scroll.y + s.containerData.size.height)
    && !s.updateLock

/-- Lines 163-188: `loadMoreDataAsync`, run against the two environment
streams.  The recursion consumes one fetch outcome per iteration; when
the guard holds but no outcome is available the fetch is recorded as in
flight and the run stops with the lock held. -/
def loadMoreDataAsync (margin : ℚ) :
    List FetchResult → LoadState → List ContainerData → LoadRun
  | [], s, geoms =>
    let g := sampleGeometry geoms s.containerData
    let s0 : LoadState := { s with containerData := g.1 }
    if loadCondition margin s0 then
      let s1 : LoadState := { s0 with updateLock := true }
      { state := s1, geoms := g.2, fetches := [],
        calls := [⟨s0.updateLock, s1.updateLock, none⟩], rejected := false }
    else
      { state := s0, geoms := g.2, fetches := [], calls := [], rejected := false }
  | r :: rest, s, geoms =>
    let g := sampleGeometry geoms s.containerData
    let s0 : LoadState := { s with containerData := g.1 }
    if loadCondition margin s0 then
      let s1 : LoadState := { s0 with updateLock := true }
      match r with
      | FetchResult.error =>
        -- the `await` throws: lines 179-185 are skipped, the promise rejects
        { state := s1, geoms := g.2, fetches := rest,
          calls := [⟨s0.updateLock, s1.updateLock, some FetchResult.error⟩],
          rejected := true }
      | FetchResult.ok isLast =>
        let s2 : LoadState :=
          { s1 with bottomReached := if isLast then true else s1.bottomReached }
        let s3 : LoadState := { s2 with updateLock := false }
        let run := loadMoreDataAsync margin rest s3 g.2
        { state := run.state, geoms := run.geoms, fetches := run.fetches,
          calls := ⟨s0.updateLock, s1.updateLock, some (FetchResult.ok isLast)⟩
            :: run.calls,
          rejected := run.rejected }
    else
      { state := s0, geoms := g.2, fetches := r :: rest, calls := [],
        rejected := false }

/-- Lines 132-140: `loadMoreData` runs `loadMoreDataAsync` and only
catches and logs a rejection (`console.error`); it changes no state and
schedules no retry, so the observable run is the same. -/
def loadMoreData (margin : ℚ) (f : List FetchResult) (s : LoadState)
    (geoms : List ContainerData) : LoadRun :=
  loadMoreDataAsync margin f s geoms

/-- Lines 385-388: `resetGrid` clears `bottomReached` and re-runs
`loadMoreData`. -/
def resetGrid (margin : ℚ) (f : List FetchResult) (s : LoadState)
    (geoms : List ContainerData) : LoadRun :=
  loadMoreData margin f { s with bottomReached := false } geoms

/-! ## Concrete inputs used by counterexamples and witnesses -/

/-- The degenerate config, used as a concrete input by witnesses. -/
def emptyCfg : ConfigData Unit :=
  { windowMargin := 0, gridGap := 0, columnCount := 1, entries := [] }

/-- A container snapshot whose tracked element has the given width, used
as a concrete input by C4's counterexample and witness. -/
def cdOfWidth (w : ℚ) : ContainerData :=
  { size := ⟨0, 0⟩, scroll := ⟨0, 0⟩, elementOffset := 0, elementSize := ⟨w, 0⟩ }

/-- A full-width-overflowing entry: column span 6, height 300. -/
def wideItem : Item Unit := ⟨0, none, 300, 6, false, ()⟩

/-- A four-column config holding just `wideItem`. -/
def fourColCfg : ConfigData Unit :=
  { windowMargin := 0, gridGap := 5, columnCount := 4, entries := [wideItem] }

/-- A degenerate cell used as a concrete input by witnesses. -/
def zeroCell : Cell Unit := ⟨0, none, false, (), 0, 1, 1, 1, 0⟩

/-- A geometry snapshot for which the bottom trigger fires with margin
500: the window bottom (0 + 1000) is past
`max 0 (0 + 100 - 500) = 0`. -/
def nearBottomCd : ContainerData :=
  { size := ⟨0, 1000⟩, scroll := ⟨0, 0⟩, elementOffset := 0,
    elementSize := ⟨0, 100⟩ }

/-- The idle state holding that geometry. -/
def idleState : LoadState :=
  { updateLock := false, bottomReached := false, containerData := nearBottomCd }

/-! ## Frame of the packer (claim C10) -/

/-- The fields of a `Cell` that the packer copies verbatim from the entry
(everything except the five computed fields). -/
def cellCarried {P : Type} (c : Cell P) : ℕ × Option ℚ × Bool × P :=
  (c.id, c.width, c.newRow, c.payload)

/-- The corresponding fields of an `Item`. -/
def itemCarried {P : Type} (e : Item P) : ℕ × Option ℚ × Bool × P :=
  (e.id, e.width, e.newRow, e.payload)

theorem layoutCells_carried {P : Type} (cfg : ConfigData P) :
    ∀ (l : List (Item P)) (i : ℤ) (s : LayoutState),
      (layoutCells cfg l i s).1.map cellCarried = l.map itemCarried := by
  intro l
  induction l with
  | nil => intro i s; rfl
  | cons e l ih =>
    intro i s
    simp only [layoutCells, List.map_cons, ih]
    rfl

/-- C10: the grid packer returns exactly one cell per entry, in input
order, carrying over the entry's identifier and every field other than
the five computed ones unchanged; the empty entry list yields no cells
and total height 0. -/
theorem layoutFrame {P : Type} (cfg : ConfigData P) :
    (computeLayoutData (some cfg)).cells.map cellCarried
        = cfg.entries.map itemCarried
      ∧ (cfg.entries = [] →
          (computeLayoutData (some cfg)).cells = []
            ∧ (computeLayoutData (some cfg)).totalHeight = 0) := by
  constructor
  · exact layoutCells_carried cfg cfg.entries 0 _
  · intro h
    simp [computeLayoutData, h, layoutCells]

theorem layoutFrameWitness :
    (computeLayoutData (some emptyCfg)).cells = []
      ∧ (computeLayoutData (some emptyCfg)).totalHeight = 0 :=
  (layoutFrame emptyCfg).2 rfl

/-! ## Column count of the derived config (claim C4)

The claim asserts `columnCount ≥ 1` for every derived config.  The code
only returns the degenerate single-column config when an input is
absent; otherwise `columnCount = ⌊width / 250⌋` with no lower clamp, so
a tracked element narrower than 250 yields `columnCount = 0`. -/

/-- C4 counterexample: a present container whose tracked element is 100
wide produces `columnCount = 0`, refuting `columnCount ≥ 1`. -/
theorem columnCountCounterexample :
    ¬ (1 ≤ (computeConfigData (some (cdOfWidth 100))
        (some ([] : List (Item Unit)))).columnCount) := by
  have h : (computeConfigData (some (cdOfWidth 100))
      (some ([] : List (Item Unit)))).columnCount = ⌊(100 : ℚ) / 250⌋ := rfl
  rw [h, show ((100 : ℚ) / 250) = 2 / 5 by norm_num]
  rw [Int.floor_eq_zero_iff.2 (by constructor <;> norm_num)]
  norm_num

/-- C4 (amended): the degenerate single-column config (columnCount 1) is
returned exactly when an input is absent; otherwise
`columnCount = ⌊trackedElementWidth / 250⌋`, which is at least 1
whenever the tracked element is at least 250 wide (and 0 or less below
that). -/
theorem columnCountAmended {P : Type} :
    (∀ its : Option (List (Item P)),
        (computeConfigData none its).columnCount = 1)
      ∧ (∀ cd : ContainerData,
          (computeConfigData (P := P) (some cd) none).columnCount = 1)
      ∧ (∀ (cd : ContainerData) (its : List (Item P)),
          (computeConfigData (some cd) (some its)).columnCount
            = ⌊cd.elementSize.width / 250⌋)
      ∧ (∀ (cd : ContainerData) (its : List (Item P)),
          250 ≤ cd.elementSize.width →
            1 ≤ (computeConfigData (some cd) (some its)).columnCount) := by
  refine ⟨fun its => by cases its <;> rfl, fun cd => rfl, fun cd its => rfl, ?_⟩
  intro cd its h
  show 1 ≤ getColumnCount cd.elementSize.width
  unfold getColumnCount
  rw [Int.le_floor]
  rw [le_div_iff₀ (by norm_num : (0 : ℚ) < 250)]
  simpa using h

theorem columnCountAmendedWitness :
    1 ≤ (computeConfigData (some (cdOfWidth 250))
        (some ([] : List (Item Unit)))).columnCount :=
  (columnCountAmended (P := Unit)).2.2.2 (cdOfWidth 250) [] (by norm_num [cdOfWidth])

/-! ## Overflow clipping (claim C6) -/

/-- C6: whenever the computed column number plus the full-row-normalized
column span exceeds `columnCount + 1`, the packer reduces the span by
`overlap = columnNumber + columnSpan - columnCount - 1` and multiplies
the height by `1 - overlap / columnSpan` before rounding; in particular
a lone entry of span 6 in a four-column grid becomes a span-4 cell whose
height is two thirds of the original, rounded. -/
theorem overflowClipping {P : Type} :
    (∀ (cfg : ConfigData P) (i : ℤ) (s : LayoutState) (e : Item P),
        cfg.columnCount + 1
            < stepColumnNumber cfg i s.columnShift e + stepSpanInit cfg e →
          (layoutStep cfg i s e).1.columnSpan
              = stepSpanInit cfg e - stepOverlap cfg i s.columnShift e
            ∧ (layoutStep cfg i s e).1.height
              = round (e.height * (1 - (stepOverlap cfg i s.columnShift e : ℚ)
                  / (stepSpanInit cfg e : ℚ))))
      ∧ (∀ h : ℚ,
          (computeLayoutData (some { fourColCfg with
              entries := [{ wideItem with height := h }] })).cells.map
            (fun c => (c.columnSpan, c.height)) = [(4, round (h * (2 / 3)))]) := by
  constructor
  · intro cfg i s e hover
    constructor
    · show stepSpan cfg i s.columnShift e = _
      rw [stepSpan, if_pos hover]
    · show round (stepHeight cfg i s.columnShift e) = _
      rw [stepHeight, if_pos hover]
  · intro h
    simp only [computeLayoutData, layoutCells, layoutStep, List.map_cons, List.map_nil,
      stepSpan, stepHeight, stepOverlap, stepSpanInit, stepColumnNumber, stepShiftedIndex,
      stepShiftA, stepPrev, fourColCfg, wideItem]
    norm_num

theorem overflowClippingWitness :
    (layoutStep fourColCfg 0 ⟨1, 0, 0, 0⟩ wideItem).1.columnSpan
        = stepSpanInit fourColCfg wideItem - stepOverlap fourColCfg 0 0 wideItem
      ∧ (layoutStep fourColCfg 0 ⟨1, 0, 0, 0⟩ wideItem).1.height
        = round (wideItem.height * (1 - (stepOverlap fourColCfg 0 0 wideItem : ℚ)
            / (stepSpanInit fourColCfg wideItem : ℚ))) :=
  (overflowClipping (P := Unit)).1 fourColCfg 0 ⟨1, 0, 0, 0⟩ wideItem (by decide)

theorem renderLoop_fst {P : Type} (cfg : ConfigData P) (cd : ContainerData) :
    ∀ (cells : List (Cell P)) (frn : Option ℤ) (fro : Option ℚ),
      (renderLoop cfg cd cells frn fro).1 = cells.filter (cellIncluded cfg cd) := by
  intro cells
  induction cells with
  | nil => intro frn fro; rfl
  | cons cell rest ih =>
    intro frn fro
    simp only [renderLoop]
    by_cases hskip : cd.scroll.y + cd.size.height + cfg.windowMargin
        < cd.elementOffset + cell.offset
      ∨ cd.elementOffset + cell.offset + (cell.height : ℚ)
        < cd.scroll.y - cfg.windowMargin
    · have hinc : cellIncluded cfg cd cell = false := by
        rw [cellIncluded]
        rcases hskip with h | h
        · simp [not_le.2 h]
        · simp [not_le.2 h]
      simp only [if_pos hskip, ih, List.filter_cons, hinc]
      simp
    · have hinc : cellIncluded cfg cd cell = true := by
        rw [not_or] at hskip
        rw [cellIncluded]
        simp [not_lt.1 hskip.1, not_lt.1 hskip.2]
      simp only [if_neg hskip, ih, List.filter_cons, hinc]
      simp

/-- C8: the rendered cells are exactly the packed cells, in packing
order, whose closed `[top, bottom]` interval meets the closed extended
band `[scrollTop - windowMargin, scrollTop + containerHeight +
windowMargin]`; the inclusion test is literally that intersection
whenever the cell interval and the band are themselves non-degenerate. -/
theorem windowingCorrect {P : Type} (cfg : ConfigData P) (cd : ContainerData)
    (ld : LayoutData P) :
    (computeRenderData (some cfg) cd (some ld)).cellsToRender
        = ld.cells.filter (cellIncluded cfg cd)
      ∧ (∀ c : Cell P, 0 ≤ c.height → 0 ≤ cfg.windowMargin → 0 ≤ cd.size.height →
          (cellIncluded cfg cd c = true ↔
            ∃ x : ℚ,
              (cd.elementOffset + c.offset ≤ x
                  ∧ x ≤ cd.elementOffset + c.offset + (c.height : ℚ))
                ∧ (cd.scroll.y - cfg.windowMargin ≤ x
                  ∧ x ≤ cd.scroll.y + cd.size.height + cfg.windowMargin))) := by
  constructor
  · exact renderLoop_fst cfg cd ld.cells none none
  · intro c hh hm hs
    rw [cellIncluded]
    simp only [Bool.and_eq_true, decide_eq_true_eq]
    constructor
    · rintro ⟨h1, h2⟩
      refine ⟨max (cd.elementOffset + c.offset) (cd.scroll.y - cfg.windowMargin),
        ⟨le_max_left _ _, ?_⟩, le_max_right _ _, ?_⟩
      · refine max_le ?_ h2
        have : (0 : ℚ) ≤ (c.height : ℚ) := by exact_mod_cast hh
        linarith
      · refine max_le h1 ?_
        linarith
    · rintro ⟨x, ⟨hx1, hx2⟩, hx3, hx4⟩
      exact ⟨le_trans hx1 hx4, le_trans hx3 hx2⟩

theorem windowingCorrectWitness :
    (computeRenderData (some emptyCfg) (cdOfWidth 0)
          (some { totalHeight := 0, cells := [zeroCell] })).cellsToRender
        = [zeroCell].filter (cellIncluded emptyCfg (cdOfWidth 0))
      ∧ (cellIncluded emptyCfg (cdOfWidth 0) zeroCell = true ↔
          ∃ x : ℚ,
            ((cdOfWidth 0).elementOffset + zeroCell.offset ≤ x
                ∧ x ≤ (cdOfWidth 0).elementOffset + zeroCell.offset
                    + (zeroCell.height : ℚ))
              ∧ ((cdOfWidth 0).scroll.y - emptyCfg.windowMargin ≤ x
                ∧ x ≤ (cdOfWidth 0).scroll.y + (cdOfWidth 0).size.height
                    + emptyCfg.windowMargin)) :=
  ⟨(windowingCorrect emptyCfg (cdOfWidth 0) ⟨0, [zeroCell]⟩).1,
   (windowingCorrect emptyCfg (cdOfWidth 0) ⟨0, [zeroCell]⟩).2 zeroCell
     le_rfl le_rfl le_rfl⟩

theorem load_noop_of_lock (margin : ℚ) (f : List FetchResult) (s : LoadState)
    (g : List ContainerData) (h : s.updateLock = true) :
    (loadMoreDataAsync margin f s g).calls = []
      ∧ (loadMoreDataAsync margin f s g).state.updateLock = true
      ∧ (loadMoreDataAsync margin f s g).state.bottomReached = s.bottomReached
      ∧ (loadMoreDataAsync margin f s g).fetches = f := by
  have hc : ∀ cd, loadCondition margin { s with containerData := cd } = false := by
    intro cd
    simp [loadCondition, h]
  cases f with
  | nil =>
    simp only [loadMoreDataAsync]
    rw [hc, if_neg Bool.false_ne_true]
    exact ⟨rfl, h, rfl, rfl⟩
  | cons r rest =>
    simp only [loadMoreDataAsync]
    rw [hc, if_neg Bool.false_ne_true]
    exact ⟨rfl, h, rfl, rfl⟩

theorem load_noop_of_bottom (margin : ℚ) (f : List FetchResult) (s : LoadState)
    (g : List ContainerData) (h : s.bottomReached = true) :
    (loadMoreDataAsync margin f s g).calls = []
      ∧ (loadMoreDataAsync margin f s g).state.bottomReached = true
      ∧ (loadMoreDataAsync margin f s g).state.updateLock = s.updateLock
      ∧ (loadMoreDataAsync margin f s g).fetches = f := by
  have hc : ∀ cd, loadCondition margin { s with containerData := cd } = false := by
    intro cd
    simp [loadCondition, h]
  cases f with
  | nil =>
    simp only [loadMoreDataAsync]
    rw [hc, if_neg Bool.false_ne_true]
    exact ⟨rfl, h, rfl, rfl⟩
  | cons r rest =>
    simp only [loadMoreDataAsync]
    rw [hc, if_neg Bool.false_ne_true]
    exact ⟨rfl, h, rfl, rfl⟩

theorem load_calls_locked (margin : ℚ) :
    ∀ (f : List FetchResult) (s : LoadState) (g : List ContainerData),
      ∀ call ∈ (loadMoreDataAsync margin f s g).calls,
        call.lockBeforeAttempt = false ∧ call.lockAtInvocation = true := by
  intro f
  induction f with
  | nil =>
    intro s g call hcall
    simp only [loadMoreDataAsync] at hcall
    by_cases hc : loadCondition margin
        { s with containerData := (sampleGeometry g s.containerData).1 } = true
    · rw [if_pos hc] at hcall
      simp only [List.mem_singleton] at hcall
      subst hcall
      refine ⟨?_, rfl⟩
      have := hc
      simp only [loadCondition, Bool.and_eq_true, Bool.not_eq_true'] at this
      exact this.2
    · rw [if_neg hc] at hcall
      exact absurd hcall (List.not_mem_nil call)
  | cons r rest ih =>
    intro s g call hcall
    simp only [loadMoreDataAsync] at hcall
    by_cases hc : loadCondition margin
        { s with containerData := (sampleGeometry g s.containerData).1 } = true
    · rw [if_pos hc] at hcall
      have hlock : ({ s with
          containerData := (sampleGeometry g s.containerData).1 } : LoadState).updateLock
            = false := by
        have := hc
        simp only [loadCondition, Bool.and_eq_true, Bool.not_eq_true'] at this
        exact this.2
      cases r with
      | error =>
        simp only [List.mem_singleton] at hcall
        subst hcall
        exact ⟨hlock, rfl⟩
      | ok isLast =>
        simp only [List.mem_cons] at hcall
        rcases hcall with hcall | hcall
        · subst hcall
          exact ⟨hlock, rfl⟩
        · exact ih _ _ call hcall
    · rw [if_neg hc] at hcall
      exact absurd hcall (List.not_mem_nil call)

theorem load_ok_true_bottom (margin : ℚ) :
    ∀ (f : List FetchResult) (s : LoadState) (g : List ContainerData),
      (∃ call ∈ (loadMoreDataAsync margin f s g).calls,
          call.result = some (FetchResult.ok true)) →
        (loadMoreDataAsync margin f s g).state.bottomReached = true := by
  intro f
  induction f with
  | nil =>
    rintro s g ⟨call, hcall, hres⟩
    simp only [loadMoreDataAsync] at hcall ⊢
    by_cases hc : loadCondition margin
        { s with containerData := (sampleGeometry g s.containerData).1 } = true
    · rw [if_pos hc] at hcall
      simp only [List.mem_singleton] at hcall
      subst hcall
      simp at hres
    · rw [if_neg hc] at hcall
      exact absurd hcall (List.not_mem_nil call)
  | cons r rest ih =>
    rintro s g ⟨call, hcall, hres⟩
    simp only [loadMoreDataAsync] at hcall ⊢
    by_cases hc : loadCondition margin
        { s with containerData := (sampleGeometry g s.containerData).1 } = true
    · rw [if_pos hc] at hcall ⊢
      cases r with
      | error =>
        simp only [List.mem_singleton] at hcall
        subst hcall
        simp at hres
      | ok isLast =>
        simp only [List.mem_cons] at hcall
        rcases hcall with hcall | hcall
        · subst hcall
          simp only [Option.some_inj, FetchResult.ok.injEq] at hres
          subst hres
          simp only
          exact (load_noop_of_bottom margin rest _ _ (by simp)).2.1
        · exact ih _ _ ⟨call, hcall, hres⟩
    · rw [if_neg hc] at hcall
      exact absurd hcall (List.not_mem_nil call)

/-- C2: the guard makes the fetch single-flight — an evaluation entered
with `updateLock = true` performs no fetch invocation at all (state,
trace and outcome stream untouched), and every recorded invocation was
made from a state whose lock was `false` at the guard and set to `true`
before the invocation. -/
theorem singleFlight (margin : ℚ) :
    (∀ (f : List FetchResult) (s : LoadState) (g : List ContainerData),
        s.updateLock = true →
          (loadMoreDataAsync margin f s g).calls = []
            ∧ (loadMoreDataAsync margin f s g).state.updateLock = true
            ∧ (loadMoreDataAsync margin f s g).state.bottomReached = s.bottomReached
            ∧ (loadMoreDataAsync margin f s g).fetches = f)
      ∧ (∀ (f : List FetchResult) (s : LoadState) (g : List ContainerData),
          ∀ call ∈ (loadMoreDataAsync margin f s g).calls,
            call.lockBeforeAttempt = false ∧ call.lockAtInvocation = true) :=
  ⟨fun f s g h => load_noop_of_lock margin f s g h,
   fun f s g => load_calls_locked margin f s g⟩

theorem singleFlightWitness :
    ((loadMoreDataAsync 500 [] { idleState with updateLock := true } []).calls = []
        ∧ (loadMoreDataAsync 500 []
            { idleState with updateLock := true } []).state.updateLock = true
        ∧ (loadMoreDataAsync 500 []
              { idleState with updateLock := true } []).state.bottomReached
          = ({ idleState with updateLock := true } : LoadState).bottomReached
        ∧ (loadMoreDataAsync 500 [] { idleState with updateLock := true } []).fetches
          = [])
      ∧ (∀ call ∈ (loadMoreDataAsync 500 [FetchResult.ok false] idleState []).calls,
          call.lockBeforeAttempt = false ∧ call.lockAtInvocation = true) :=
  ⟨(singleFlight 500).1 [] { idleState with updateLock := true } [] rfl,
   (singleFlight 500).2 [FetchResult.ok false] idleState []⟩

/-- C3: a fetch that resolves `true` sets `bottomReached`; an evaluation
entered with `bottomReached = true` performs no fetch invocation and
leaves the terminal flag set; and `resetGrid` clears the flag and
re-evaluates, invoking the fetch again whenever the idle trigger
condition holds on the freshly sampled geometry. -/
theorem terminalConvergence (margin : ℚ) :
    (∀ (f : List FetchResult) (s : LoadState) (g : List ContainerData),
        (∃ call ∈ (loadMoreDataAsync margin f s g).calls,
            call.result = some (FetchResult.ok true)) →
          (loadMoreDataAsync margin f s g).state.bottomReached = true)
      ∧ (∀ (f : List FetchResult) (s : LoadState) (g : List ContainerData),
          s.bottomReached = true →
            (loadMoreDataAsync margin f s g).calls = []
              ∧ (loadMoreDataAsync margin f s g).state.bottomReached = true)
      ∧ (∀ (f : List FetchResult) (s : LoadState) (cd : ContainerData)
            (g : List ContainerData),
          s.updateLock = false →
          bottomTrigger margin cd ≤ cd.scroll.y + cd.size.height →
            (resetGrid margin f s (cd :: g)).calls ≠ []) := by
  refine ⟨fun f s g h => load_ok_true_bottom margin f s g h,
    fun f s g h => ⟨(load_noop_of_bottom margin f s g h).1,
      (load_noop_of_bottom margin f s g h).2.1⟩, ?_⟩
  intro f s cd g hlock htrig
  have hcond : loadCondition margin
      { updateLock := s.updateLock, bottomReached := false,
        containerData := cd } = true := by
    simp [loadCondition, hlock, htrig]
  cases f with
  | nil =>
    simp only [resetGrid, loadMoreData, loadMoreDataAsync, sampleGeometry]
    rw [hcond, if_pos rfl]
    simp
  | cons r rest =>
    simp only [resetGrid, loadMoreData, loadMoreDataAsync, sampleGeometry]
    rw [hcond, if_pos rfl]
    cases r with
    | error => simp
    | ok isLast => simp

theorem terminalConvergenceWitness :
    ((loadMoreDataAsync 500 [FetchResult.ok true] idleState []).state.bottomReached
        = true)
      ∧ ((loadMoreDataAsync 500 [FetchResult.ok false]
            { idleState with bottomReached := true } []).calls = []
          ∧ (loadMoreDataAsync 500 [FetchResult.ok false]
              { idleState with bottomReached := true } []).state.bottomReached = true)
      ∧ (resetGrid 500 [FetchResult.ok false]
          { idleState with bottomReached := true } [nearBottomCd]).calls ≠ [] := by
  refine ⟨(terminalConvergence 500).1 [FetchResult.ok true] idleState [] ?_,
    (terminalConvergence 500).2.1 [FetchResult.ok false]
      { idleState with bottomReached := true } [] rfl,
    (terminalConvergence 500).2.2 [FetchResult.ok false]
      { idleState with bottomReached := true } nearBottomCd [] rfl ?_⟩
  · refine ⟨⟨false, true, some (FetchResult.ok true)⟩, ?_, rfl⟩
    have hcond : loadCondition 500 idleState = true := by
      simp [loadCondition, idleState, nearBottomCd, bottomTrigger]
      norm_num
    simp only [loadMoreDataAsync, sampleGeometry]
    rw [show ({ idleState with containerData := idleState.containerData } : LoadState)
        = idleState from rfl, hcond, if_pos rfl]
    simp [idleState]
  · simp [bottomTrigger, nearBottomCd]
    norm_num

/-- C1 (against the failing input): when the fetch function rejects, the
`await` throws, so line 184 (`updateLock = false`) never runs — the run
ends rejected with `updateLock` still `true`, `bottomReached` untouched
and exactly one invocation recorded, and a later externally-triggered
evaluation (here with the trigger condition true and a fresh fetch
outcome available) performs no fetch invocation at all: the lock is
never released and there is no way to fetch again.  The spec instead
says the lock is released and a later evaluation can fetch again. -/
theorem fetchFailureLeavesLockHeld :
    (loadMoreData 500 [FetchResult.error] idleState []).rejected = true
      ∧ (loadMoreData 500 [FetchResult.error] idleState []).state.updateLock = true
      ∧ (loadMoreData 500 [FetchResult.error] idleState []).state.bottomReached = false
      ∧ (loadMoreData 500 [FetchResult.error] idleState []).calls
        = [⟨false, true, some FetchResult.error⟩]
      ∧ (loadMoreData 500 [FetchResult.ok false]
          (loadMoreData 500 [FetchResult.error] idleState []).state
          [nearBottomCd]).calls = [] := by
  have hcond : loadCondition 500 idleState = true := by
    simp [loadCondition, idleState, nearBottomCd, bottomTrigger]
    norm_num
  have hrun : loadMoreData 500 [FetchResult.error] idleState []
      = { state := { idleState with updateLock := true }, geoms := [],
          fetches := [], calls := [⟨false, true, some FetchResult.error⟩],
          rejected := true } := by
    simp only [loadMoreData, loadMoreDataAsync, sampleGeometry]
    rw [show ({ idleState with containerData := idleState.containerData } : LoadState)
        = idleState from rfl, hcond, if_pos rfl]
    rfl
  refine ⟨by simp [hrun], by simp [hrun], by rw [hrun]; rfl,
    by simp [hrun], ?_⟩
  rw [hrun]
  exact (load_noop_of_lock 500 [FetchResult.ok false] _ [nearBottomCd] rfl).1

/-! ## Packing invariants (claims C5, C7, C9) -/

theorem stepSpanInit_pos {P : Type} (cfg : ConfigData P) (e : Item P)
    (hcc : 1 ≤ cfg.columnCount) : 1 ≤ stepSpanInit cfg e := by
  unfold stepSpanInit
  split_ifs with h
  · exact hcc
  · omega

theorem stepShiftA_le {P : Type} (cfg : ConfigData P) (i sh : ℤ) (e : Item P)
    (hcc : 1 ≤ cfg.columnCount) : sh ≤ stepShiftA cfg i sh e := by
  unfold stepShiftA
  split_ifs with h
  · have := Int.emod_lt_of_pos (i + sh) (show (0 : ℤ) < cfg.columnCount by omega)
    omega
  · exact le_rfl

theorem stepColumnNumber_bounds {P : Type} (cfg : ConfigData P) (i sh : ℤ)
    (e : Item P) (hcc : 1 ≤ cfg.columnCount) :
    1 ≤ stepColumnNumber cfg i sh e ∧ stepColumnNumber cfg i sh e ≤ cfg.columnCount := by
  unfold stepColumnNumber
  have h0 : 0 ≤ stepShiftedIndex cfg i sh e % cfg.columnCount :=
    Int.emod_nonneg _ (by omega)
  have h1 : stepShiftedIndex cfg i sh e % cfg.columnCount < cfg.columnCount :=
    Int.emod_lt_of_pos _ (by omega)
  omega

theorem stepSpan_bounds {P : Type} (cfg : ConfigData P) (i sh : ℤ) (e : Item P)
    (hcc : 1 ≤ cfg.columnCount) :
    1 ≤ stepSpan cfg i sh e
      ∧ stepColumnNumber cfg i sh e + stepSpan cfg i sh e - 1 ≤ cfg.columnCount := by
  have hcol := stepColumnNumber_bounds cfg i sh e hcc
  have hinit := stepSpanInit_pos cfg e hcc
  unfold stepSpan stepOverlap
  split_ifs with h <;> omega

theorem stepShiftB_ge {P : Type} (cfg : ConfigData P) (i sh : ℤ) (e : Item P) :
    stepShiftA cfg i sh e ≤ stepShiftB cfg i sh e := by
  unfold stepShiftB
  split_ifs with h <;> omega

theorem stepCurrentRow_eq (s : LayoutState) (rowN : ℤ) :
    stepCurrentRow s rowN = rowN := by
  unfold stepCurrentRow
  split_ifs with h
  · rfl
  · exact (not_ne_iff.mp h).symm

theorem stepRowNumber_lb {P : Type} (cfg : ConfigData P) (i sh : ℤ) (e : Item P)
    (hcc : 1 ≤ cfg.columnCount) :
    (i + sh) / cfg.columnCount + 1 ≤ stepRowNumber cfg i sh e := by
  unfold stepRowNumber stepShiftedIndex
  have h := Int.ediv_le_ediv (show (0 : ℤ) < cfg.columnCount by omega)
    (add_le_add_left (stepShiftA_le cfg i sh e hcc) i)
  omega

theorem stepRowNumber_next {P : Type} (cfg : ConfigData P) (i sh : ℤ) (e : Item P)
    (hcc : 1 ≤ cfg.columnCount) :
    stepRowNumber cfg i sh e ≤ (i + 1 + stepShiftB cfg i sh e) / cfg.columnCount + 1 := by
  unfold stepRowNumber stepShiftedIndex
  have hAB := stepShiftB_ge cfg i sh e
  have h := Int.ediv_le_ediv (show (0 : ℤ) < cfg.columnCount by omega)
    (show i + stepShiftA cfg i sh e ≤ i + 1 + stepShiftB cfg i sh e by omega)
  omega

theorem layoutCells_bounds {P : Type} (cfg : ConfigData P)
    (hcc : 1 ≤ cfg.columnCount) :
    ∀ (l : List (Item P)) (i : ℤ) (s : LayoutState), 0 ≤ s.columnShift →
      ∀ c ∈ (layoutCells cfg l i s).1,
        1 ≤ c.columnNumber ∧ c.columnNumber ≤ cfg.columnCount
          ∧ c.columnNumber + c.columnSpan - 1 ≤ cfg.columnCount := by
  intro l
  induction l with
  | nil =>
    intro i s _ c hc
    simp [layoutCells] at hc
  | cons e l ih =>
    intro i s hsh c hc
    simp only [layoutCells, List.mem_cons] at hc
    rcases hc with rfl | hc
    · exact ⟨(stepColumnNumber_bounds cfg i s.columnShift e hcc).1,
        (stepColumnNumber_bounds cfg i s.columnShift e hcc).2,
        (stepSpan_bounds cfg i s.columnShift e hcc).2⟩
    · refine ih (i + 1) (layoutStep cfg i s e).2 ?_ c hc
      have h1 := stepShiftA_le cfg i s.columnShift e hcc
      have h2 := stepShiftB_ge cfg i s.columnShift e
      show 0 ≤ stepShiftB cfg i s.columnShift e
      omega

/-- C5: with at least one column, every packed cell's column number lies
between 1 and `columnCount`, and after overflow clipping no cell extends
past the last column (`columnNumber + columnSpan - 1 ≤ columnCount`). -/
theorem packingValidity {P : Type} (cfg : ConfigData P)
    (hcc : 1 ≤ cfg.columnCount) :
    ∀ c ∈ (computeLayoutData (some cfg)).cells,
      1 ≤ c.columnNumber ∧ c.columnNumber ≤ cfg.columnCount
        ∧ c.columnNumber + c.columnSpan - 1 ≤ cfg.columnCount :=
  fun c hc => layoutCells_bounds cfg hcc cfg.entries 0 _ le_rfl c hc

theorem packingValidityWitness :
    1 ≤ (layoutStep fourColCfg 0 ⟨1, 0, 0, 0⟩ wideItem).1.columnNumber
      ∧ (layoutStep fourColCfg 0 ⟨1, 0, 0, 0⟩ wideItem).1.columnNumber
          ≤ fourColCfg.columnCount
      ∧ (layoutStep fourColCfg 0 ⟨1, 0, 0, 0⟩ wideItem).1.columnNumber
            + (layoutStep fourColCfg 0 ⟨1, 0, 0, 0⟩ wideItem).1.columnSpan - 1
          ≤ fourColCfg.columnCount :=
  packingValidity fourColCfg (by norm_num [fourColCfg])
    ((layoutStep fourColCfg 0 ⟨1, 0, 0, 0⟩ wideItem).1)
    (List.mem_cons_self _ _)

theorem stepRowMaxBase_nonneg (s : LayoutState) (rowN : ℤ)
    (h : 0 ≤ s.currentRowMaxHeight) : 0 ≤ stepRowMaxBase s rowN := by
  unfold stepRowMaxBase
  split_ifs <;> omega

theorem stepPrev_ge {P : Type} (cfg : ConfigData P) (s : LayoutState) (rowN : ℤ)
    (hgap : 0 ≤ cfg.gridGap) (hmax : 0 ≤ s.currentRowMaxHeight) :
    s.prevRowsTotalHeight ≤ stepPrev cfg s rowN := by
  unfold stepPrev
  split_ifs with h
  · have : (0 : ℚ) ≤ (s.currentRowMaxHeight : ℚ) := by exact_mod_cast hmax
    linarith
  · exact le_rfl

theorem layoutCells_mono {P : Type} (cfg : ConfigData P)
    (hcc : 1 ≤ cfg.columnCount) (hgap : 0 ≤ cfg.gridGap) :
    ∀ (l : List (Item P)) (i : ℤ) (s : LayoutState),
      0 ≤ s.columnShift → 0 ≤ s.currentRowMaxHeight →
      s.currentRowNumber ≤ (i + s.columnShift) / cfg.columnCount + 1 →
      (∀ c ∈ (layoutCells cfg l i s).1,
          s.currentRowNumber ≤ c.rowNumber ∧ s.prevRowsTotalHeight ≤ c.offset)
        ∧ List.Pairwise
            (fun a b : Cell P => a.rowNumber ≤ b.rowNumber ∧ a.offset ≤ b.offset)
            (layoutCells cfg l i s).1 := by
  intro l
  induction l with
  | nil =>
    intro i s _ _ _
    constructor
    · intro c hc
      simp [layoutCells] at hc
    · simp [layoutCells]
  | cons e l ih =>
    intro i s hsh hmax hrow
    have hA := stepShiftA_le cfg i s.columnShift e hcc
    have hB := stepShiftB_ge cfg i s.columnShift e
    have hrowhead : s.currentRowNumber ≤ stepRowNumber cfg i s.columnShift e :=
      le_trans hrow (stepRowNumber_lb cfg i s.columnShift e hcc)
    have hprevhead : s.prevRowsTotalHeight
        ≤ stepPrev cfg s (stepRowNumber cfg i s.columnShift e) :=
      stepPrev_ge cfg s _ hgap hmax
    have hcur1 : (layoutStep cfg i s e).2.currentRowNumber
        = stepRowNumber cfg i s.columnShift e := stepCurrentRow_eq s _
    have hprev1 : (layoutStep cfg i s e).2.prevRowsTotalHeight
        = stepPrev cfg s (stepRowNumber cfg i s.columnShift e) := rfl
    have hih := ih (i + 1) (layoutStep cfg i s e).2
      (show 0 ≤ stepShiftB cfg i s.columnShift e by omega)
      (le_max_of_le_left (stepRowMaxBase_nonneg s _ hmax))
      (by
        rw [hcur1]
        exact stepRowNumber_next cfg i s.columnShift e hcc)
    constructor
    · intro c hc
      simp only [layoutCells, List.mem_cons] at hc
      rcases hc with rfl | hc
      · exact ⟨hrowhead, hprevhead⟩
      · have h2 := (hih.1 c hc)
        rw [hcur1] at h2
        rw [hprev1] at h2
        exact ⟨le_trans hrowhead h2.1, le_trans hprevhead h2.2⟩
    · show List.Pairwise _ ((layoutStep cfg i s e).1 :: (layoutCells cfg l (i + 1)
        (layoutStep cfg i s e).2).1)
      refine List.Pairwise.cons ?_ hih.2
      intro c hc
      have h2 := hih.1 c hc
      rw [hcur1] at h2
      rw [hprev1] at h2
      exact ⟨h2.1, h2.2⟩

/-- C9: with at least one column (and the derived, non-negative grid
gap), packed row numbers are non-decreasing in input order and offsets
are non-decreasing along the sequence — a cell of a later row never has
a smaller offset than one of an earlier row. -/
theorem rowMonotonicity {P : Type} (cfg : ConfigData P)
    (hcc : 1 ≤ cfg.columnCount) (hgap : 0 ≤ cfg.gridGap) :
    List.Pairwise (fun a b : Cell P => a.rowNumber ≤ b.rowNumber ∧ a.offset ≤ b.offset)
      (computeLayoutData (some cfg)).cells :=
  (layoutCells_mono cfg hcc hgap cfg.entries 0
    { currentRowNumber := 1, prevRowsTotalHeight := 0,
      currentRowMaxHeight := 0, columnShift := 0 }
    le_rfl le_rfl (by simp)).2

theorem rowMonotonicityWitness :
    List.Pairwise (fun a b : Cell Unit =>
        a.rowNumber ≤ b.rowNumber ∧ a.offset ≤ b.offset)
      (computeLayoutData (some fourColCfg)).cells :=
  rowMonotonicity fourColCfg (by norm_num [fourColCfg]) (by norm_num [fourColCfg])

theorem roundNonneg (x : ℚ) (h : 0 ≤ x) : 0 ≤ round x := by
  rw [round_eq]
  refine Int.le_floor.mpr ?_
  push_cast
  linarith

theorem stepHeight_nonneg {P : Type} (cfg : ConfigData P) (i sh : ℤ) (e : Item P)
    (hcc : 1 ≤ cfg.columnCount) (hh : 0 ≤ e.height) : 0 ≤ stepHeight cfg i sh e := by
  unfold stepHeight
  split_ifs with h
  · have hcol := stepColumnNumber_bounds cfg i sh e hcc
    have hinit := stepSpanInit_pos cfg e hcc
    have hover : stepOverlap cfg i sh e ≤ stepSpanInit cfg e := by
      unfold stepOverlap
      omega
    have hpos : (0 : ℚ) < (stepSpanInit cfg e : ℚ) := by exact_mod_cast by omega
    have hq : (stepOverlap cfg i sh e : ℚ) / (stepSpanInit cfg e : ℚ) ≤ 1 := by
      rw [div_le_one hpos]
      exact_mod_cast hover
    exact mul_nonneg hh (by linarith)
  · exact hh

theorem layoutCells_heights {P : Type} (cfg : ConfigData P)
    (hcc : 1 ≤ cfg.columnCount) :
    ∀ (l : List (Item P)) (i : ℤ) (s : LayoutState), (∀ e ∈ l, 0 ≤ e.height) →
      ∀ c ∈ (layoutCells cfg l i s).1, 0 ≤ c.height := by
  intro l
  induction l with
  | nil =>
    intro i s _ c hc
    simp [layoutCells] at hc
  | cons e l ih =>
    intro i s hl c hc
    simp only [layoutCells, List.mem_cons] at hc
    rcases hc with rfl | hc
    · exact roundNonneg _ (stepHeight_nonneg cfg i s.columnShift e hcc
        (hl e (List.mem_cons_self _ _)))
    · exact ih (i + 1) _ (fun d hd => hl d (List.mem_cons_of_mem _ hd)) c hc

theorem getLastIsMem {α : Type} : ∀ {l : List α} {a : α}, l.getLast? = some a → a ∈ l := by
  intro l
  induction l with
  | nil => intro a h; simp at h
  | cons x l ih =>
    intro a h
    cases l with
    | nil =>
      simp only [List.getLast?_singleton, Option.some_inj] at h
      simp [h]
    | cons y l' =>
      rw [List.getLast?_cons_cons] at h
      exact List.mem_cons_of_mem _ (ih h)

theorem foldMaxCell_bounds {P : Type} :
    ∀ (L : List (Cell P)) (a : ℤ),
      a ≤ L.foldl (fun m c => max m c.height) a
        ∧ ∀ d ∈ L, d.height ≤ L.foldl (fun m c => max m c.height) a := by
  intro L
  induction L with
  | nil =>
    intro a
    exact ⟨le_rfl, by simp⟩
  | cons x l ih =>
    intro a
    simp only [List.foldl_cons]
    constructor
    · exact le_trans (le_max_left a x.height) (ih (max a x.height)).1
    · intro d hd
      rcases List.mem_cons.mp hd with rfl | hd
      · exact le_trans (le_max_right a d.height) (ih (max a d.height)).1
      · exact (ih (max a x.height)).2 d hd

theorem foldMaxCell_mem {P : Type} :
    ∀ (L : List (Cell P)) (a : ℤ),
      L.foldl (fun m c => max m c.height) a = a
        ∨ ∃ d ∈ L, d.height = L.foldl (fun m c => max m c.height) a := by
  intro L
  induction L with
  | nil =>
    intro a
    exact Or.inl rfl
  | cons x l ih =>
    intro a
    simp only [List.foldl_cons]
    rcases ih (max a x.height) with h | ⟨d, hd, hh⟩
    · rcases max_choice a x.height with hm | hm
      · left
        rw [h, hm]
      · right
        exact ⟨x, List.mem_cons_self _ _, by rw [h, hm]⟩
    · right
      exact ⟨d, List.mem_cons_of_mem _ hd, hh⟩

theorem layoutCells_struct {P : Type} (cfg : ConfigData P)
    (hcc : 1 ≤ cfg.columnCount) :
    ∀ (l : List (Item P)) (i : ℤ) (s : LayoutState),
      0 ≤ s.columnShift →
      s.currentRowNumber ≤ (i + s.columnShift) / cfg.columnCount + 1 →
      ((layoutCells cfg l i s).1 = [] → (layoutCells cfg l i s).2 = s)
        ∧ (∀ c, (layoutCells cfg l i s).1.getLast? = some c →
            c.rowNumber = (layoutCells cfg l i s).2.currentRowNumber
              ∧ c.offset = (layoutCells cfg l i s).2.prevRowsTotalHeight)
        ∧ (∀ c ∈ (layoutCells cfg l i s).1,
            c.rowNumber ≤ (layoutCells cfg l i s).2.currentRowNumber)
        ∧ s.currentRowNumber ≤ (layoutCells cfg l i s).2.currentRowNumber
        ∧ (layoutCells cfg l i s).2.currentRowMaxHeight
            = ((layoutCells cfg l i s).1.filter
                  (fun c => c.rowNumber = (layoutCells cfg l i s).2.currentRowNumber)).foldl
                (fun m c => max m c.height)
                (if (layoutCells cfg l i s).2.currentRowNumber = s.currentRowNumber
                 then s.currentRowMaxHeight else 0) := by
  intro l
  induction l with
  | nil =>
    intro i s _ _
    refine ⟨fun _ => rfl, ?_, ?_, le_rfl, ?_⟩
    · intro c hc
      simp [layoutCells] at hc
    · intro c hc
      simp [layoutCells] at hc
    · simp [layoutCells]
  | cons e l ih =>
    intro i s hsh hrow
    have hA := stepShiftA_le cfg i s.columnShift e hcc
    have hB := stepShiftB_ge cfg i s.columnShift e
    have hheadrow : s.currentRowNumber ≤ stepRowNumber cfg i s.columnShift e :=
      le_trans hrow (stepRowNumber_lb cfg i s.columnShift e hcc)
    have hcur1 : (layoutStep cfg i s e).2.currentRowNumber
        = stepRowNumber cfg i s.columnShift e := stepCurrentRow_eq s _
    have hih := ih (i + 1) (layoutStep cfg i s e).2
      (show 0 ≤ stepShiftB cfg i s.columnShift e by omega)
      (by
        rw [hcur1]
        exact stepRowNumber_next cfg i s.columnShift e hcc)
    obtain ⟨ihA, ihB, ihC, ihD, ihE⟩ := hih
    have hRge : stepRowNumber cfg i s.columnShift e
        ≤ (layoutCells cfg l (i + 1) (layoutStep cfg i s e).2).2.currentRowNumber := by
      rw [hcur1] at ihD
      exact ihD
    simp only [layoutCells]
    refine ⟨fun h => absurd h (List.cons_ne_nil _ _), ?_, ?_, ?_, ?_⟩
    · -- the last cell carries the final row number and offset
      intro c hlast
      cases hT : (layoutCells cfg l (i + 1) (layoutStep cfg i s e).2).1 with
      | nil =>
        rw [hT] at hlast
        simp only [List.getLast?_singleton, Option.some_inj] at hlast
        subst hlast
        have ht2 := ihA hT
        rw [ht2, hcur1]
        exact ⟨rfl, rfl⟩
      | cons c' l' =>
        rw [hT, List.getLast?_cons_cons] at hlast
        rw [← hT] at hlast
        exact ihB c hlast
    · intro c hc
      rcases List.mem_cons.mp hc with rfl | hc
      · exact hRge
      · exact ihC c hc
    · exact le_trans hheadrow hRge
    · -- the running row-max accounts exactly for the cells of the final row
      by_cases hR : stepRowNumber cfg i s.columnShift e
          = (layoutCells cfg l (i + 1) (layoutStep cfg i s e).2).2.currentRowNumber
      · have hfilt : ((layoutStep cfg i s e).1
            :: (layoutCells cfg l (i + 1) (layoutStep cfg i s e).2).1).filter
              (fun c => c.rowNumber
                = (layoutCells cfg l (i + 1) (layoutStep cfg i s e).2).2.currentRowNumber)
            = (layoutStep cfg i s e).1
              :: (layoutCells cfg l (i + 1) (layoutStep cfg i s e).2).1.filter
                (fun c => c.rowNumber
                  = (layoutCells cfg l (i + 1)
                      (layoutStep cfg i s e).2).2.currentRowNumber) := by
          rw [List.filter_cons]
          simp only [decide_eq_true_eq]
          rw [if_pos]
          show stepRowNumber cfg i s.columnShift e = _
          exact hR
        rw [hfilt, List.foldl_cons, ihE]
        congr 1
        rw [hcur1]
        rw [if_pos hR.symm]
        show max (stepRowMaxBase s (stepRowNumber cfg i s.columnShift e))
            (round (stepHeight cfg i s.columnShift e)) = _
        unfold stepRowMaxBase
        by_cases hsc : stepRowNumber cfg i s.columnShift e = s.currentRowNumber
        · rw [if_neg (not_ne_iff.mpr hsc), if_pos (hR.symm.trans hsc), sup_eq_max]
          rfl
        · rw [if_pos hsc, if_neg (fun hh => hsc (hR.trans hh)), sup_eq_max]
          rfl
      · have hlt : stepRowNumber cfg i s.columnShift e
            < (layoutCells cfg l (i + 1) (layoutStep cfg i s e).2).2.currentRowNumber := by
          omega
        have hfilt : ((layoutStep cfg i s e).1
            :: (layoutCells cfg l (i + 1) (layoutStep cfg i s e).2).1).filter
              (fun c => c.rowNumber
                = (layoutCells cfg l (i + 1) (layoutStep cfg i s e).2).2.currentRowNumber)
            = (layoutCells cfg l (i + 1) (layoutStep cfg i s e).2).1.filter
                (fun c => c.rowNumber
                  = (layoutCells cfg l (i + 1)
                      (layoutStep cfg i s e).2).2.currentRowNumber) := by
          rw [List.filter_cons]
          simp only [decide_eq_true_eq]
          rw [if_neg]
          show ¬ (stepRowNumber cfg i s.columnShift e = _)
          omega
        rw [hfilt, ihE]
        congr 1
        rw [hcur1]
        rw [if_neg (by omega), if_neg (by omega)]

theorem layoutCells_gap {P : Type} (cfg : ConfigData P) (g : ℚ) :
    ∀ (l : List (Item P)) (i : ℤ) (s1 s2 : LayoutState),
      s1.currentRowNumber = s2.currentRowNumber →
      s1.currentRowMaxHeight = s2.currentRowMaxHeight →
      s1.columnShift = s2.columnShift →
      (layoutCells { cfg with gridGap := g } l i s1).1.map
            (fun c => (c.rowNumber, c.height))
          = (layoutCells cfg l i s2).1.map (fun c => (c.rowNumber, c.height))
        ∧ (layoutCells { cfg with gridGap := g } l i s1).2.currentRowNumber
            = (layoutCells cfg l i s2).2.currentRowNumber
        ∧ (layoutCells { cfg with gridGap := g } l i s1).2.currentRowMaxHeight
            = (layoutCells cfg l i s2).2.currentRowMaxHeight
        ∧ (layoutCells { cfg with gridGap := g } l i s1).2.columnShift
            = (layoutCells cfg l i s2).2.columnShift := by
  intro l
  induction l with
  | nil =>
    intro i s1 s2 h1 h2 h3
    exact ⟨rfl, h1, h2, h3⟩
  | cons e l ih =>
    intro i s1 s2 h1 h2 h3
    have hrn : stepRowNumber { cfg with gridGap := g } i s1.columnShift e
        = stepRowNumber cfg i s2.columnShift e := by
      rw [h3]
      rfl
    have hht : round (stepHeight { cfg with gridGap := g } i s1.columnShift e)
        = round (stepHeight cfg i s2.columnShift e) := by
      rw [h3]
      rfl
    have hcur : (layoutStep { cfg with gridGap := g } i s1 e).2.currentRowNumber
        = (layoutStep cfg i s2 e).2.currentRowNumber := by
      show stepCurrentRow s1 (stepRowNumber { cfg with gridGap := g } i s1.columnShift e)
          = stepCurrentRow s2 (stepRowNumber cfg i s2.columnShift e)
      rw [stepCurrentRow_eq, stepCurrentRow_eq]
      exact hrn
    have hbase : stepRowMaxBase s1
          (stepRowNumber { cfg with gridGap := g } i s1.columnShift e)
        = stepRowMaxBase s2 (stepRowNumber cfg i s2.columnShift e) := by
      unfold stepRowMaxBase
      rw [hrn, h1, h2]
    have hmax : (layoutStep { cfg with gridGap := g } i s1 e).2.currentRowMaxHeight
        = (layoutStep cfg i s2 e).2.currentRowMaxHeight := by
      show max _ _ = max _ _
      rw [hbase, hht]
    have hshb : (layoutStep { cfg with gridGap := g } i s1 e).2.columnShift
        = (layoutStep cfg i s2 e).2.columnShift := by
      show stepShiftB _ i s1.columnShift e = stepShiftB _ i s2.columnShift e
      rw [h3]
      rfl
    have hihr := ih (i + 1) (layoutStep { cfg with gridGap := g } i s1 e).2
      (layoutStep cfg i s2 e).2 hcur hmax hshb
    refine ⟨?_, hihr.2.1, hihr.2.2.1, hihr.2.2.2⟩
    simp only [layoutCells, List.map_cons]
    rw [hihr.1]
    congr 1
    show (stepRowNumber { cfg with gridGap := g } i s1.columnShift e,
        round (stepHeight { cfg with gridGap := g } i s1.columnShift e)) = _
    rw [hrn, hht]
    rfl

theorem layoutCells_noclose {P : Type} (cfg : ConfigData P) :
    ∀ (l : List (Item P)) (i : ℤ) (s : LayoutState),
      (∀ c ∈ (layoutCells cfg l i s).1, c.rowNumber = s.currentRowNumber) →
      (layoutCells cfg l i s).2.prevRowsTotalHeight = s.prevRowsTotalHeight
        ∧ (layoutCells cfg l i s).2.currentRowNumber = s.currentRowNumber := by
  intro l
  induction l with
  | nil =>
    intro i s _
    exact ⟨rfl, rfl⟩
  | cons e l ih =>
    intro i s hall
    have hhead : stepRowNumber cfg i s.columnShift e = s.currentRowNumber :=
      hall (layoutStep cfg i s e).1 (List.mem_cons_self _ _)
    have hprev : (layoutStep cfg i s e).2.prevRowsTotalHeight
        = s.prevRowsTotalHeight := by
      show stepPrev cfg s (stepRowNumber cfg i s.columnShift e) = _
      unfold stepPrev
      rw [if_neg (not_ne_iff.mpr hhead)]
    have hcur : (layoutStep cfg i s e).2.currentRowNumber = s.currentRowNumber := by
      show stepCurrentRow s (stepRowNumber cfg i s.columnShift e) = _
      rw [stepCurrentRow_eq]
      exact hhead
    have htail := ih (i + 1) (layoutStep cfg i s e).2
      (fun c hc => by
        rw [hcur]
        exact hall c (List.mem_cons_of_mem _ hc))
    exact ⟨htail.1.trans hprev, htail.2.trans hcur⟩

/-- C7: for a config with at least one column and (pixel-sized, hence
non-negative) entry heights, the packer's `totalHeight` is the last
row's offset plus the maximum cell height of that row — no gap is added
after the last row — and when every cell lands in row 1 the total height
does not depend on the grid-gap value at all. -/
theorem totalHeightCorrect {P : Type} (cfg : ConfigData P)
    (hcc : 1 ≤ cfg.columnCount) (hents : ∀ e ∈ cfg.entries, 0 ≤ e.height) :
    (∀ c, (computeLayoutData (some cfg)).cells.getLast? = some c →
        ∃ M : ℤ,
          M ∈ ((computeLayoutData (some cfg)).cells.filter
              (fun d => d.rowNumber = c.rowNumber)).map (fun d => d.height)
            ∧ (∀ h ∈ ((computeLayoutData (some cfg)).cells.filter
                (fun d => d.rowNumber = c.rowNumber)).map (fun d => d.height), h ≤ M)
            ∧ (computeLayoutData (some cfg)).totalHeight = c.offset + (M : ℚ))
      ∧ (∀ g : ℚ, (∀ c ∈ (computeLayoutData (some cfg)).cells, c.rowNumber = 1) →
          (computeLayoutData (some { cfg with gridGap := g })).totalHeight
            = (computeLayoutData (some cfg)).totalHeight) := by
  constructor
  · intro c hlast
    obtain ⟨-, sB, sC, -, sE⟩ := layoutCells_struct cfg hcc cfg.entries 0
      { currentRowNumber := 1, prevRowsTotalHeight := 0,
        currentRowMaxHeight := 0, columnShift := 0 } le_rfl (by simp)
    obtain ⟨hrow, hoff⟩ := sB c hlast
    rw [ite_self] at sE
    have hmem : c ∈ (computeLayoutData (some cfg)).cells := getLastIsMem hlast
    have hmemf : c ∈ (computeLayoutData (some cfg)).cells.filter
        (fun d => d.rowNumber = c.rowNumber) :=
      List.mem_filter.mpr ⟨hmem, by simp⟩
    have hhts : ∀ d ∈ (computeLayoutData (some cfg)).cells.filter
        (fun d => d.rowNumber = c.rowNumber), 0 ≤ d.height :=
      fun d hd => layoutCells_heights cfg hcc cfg.entries 0 _ hents d
        (List.mem_filter.mp hd).1
    have hfilt : (computeLayoutData (some cfg)).cells.filter
          (fun d => d.rowNumber = c.rowNumber)
        = (computeLayoutData (some cfg)).cells.filter
          (fun d => d.rowNumber
            = (layoutCells cfg cfg.entries 0
                { currentRowNumber := 1, prevRowsTotalHeight := 0,
                  currentRowMaxHeight := 0, columnShift := 0 }).2.currentRowNumber) := by
      rw [hrow]
    have hub : ∀ d ∈ (computeLayoutData (some cfg)).cells.filter
        (fun d => d.rowNumber = c.rowNumber),
          d.height ≤ ((computeLayoutData (some cfg)).cells.filter
            (fun d => d.rowNumber = c.rowNumber)).foldl (fun m d => max m d.height) 0 :=
      (foldMaxCell_bounds _ 0).2
    have hFmem : ((computeLayoutData (some cfg)).cells.filter
          (fun d => d.rowNumber = c.rowNumber)).foldl (fun m d => max m d.height) 0
        ∈ ((computeLayoutData (some cfg)).cells.filter
          (fun d => d.rowNumber = c.rowNumber)).map (fun d => d.height) := by
      rcases foldMaxCell_mem ((computeLayoutData (some cfg)).cells.filter
          (fun d => d.rowNumber = c.rowNumber)) 0 with h0 | ⟨d, hd, hh⟩
      · have hcle := hub c hmemf
        have hcge : 0 ≤ c.height := hhts c hmemf
        rw [h0] at hcle ⊢
        exact List.mem_map.mpr ⟨c, hmemf, le_antisymm hcle hcge⟩
      · exact List.mem_map.mpr ⟨d, hd, hh⟩
    have hEq : (layoutCells cfg cfg.entries 0
          { currentRowNumber := 1, prevRowsTotalHeight := 0,
            currentRowMaxHeight := 0, columnShift := 0 }).2.currentRowMaxHeight
        = ((computeLayoutData (some cfg)).cells.filter
            (fun d => d.rowNumber = c.rowNumber)).foldl (fun m d => max m d.height) 0 := by
      rw [sE, hfilt]
      congr 1
    refine ⟨_, hFmem, ?_, ?_⟩
    · intro h hh
      obtain ⟨d, hd, rfl⟩ := List.mem_map.mp hh
      exact hub d hd
    · show (layoutCells cfg cfg.entries 0
          { currentRowNumber := 1, prevRowsTotalHeight := 0,
            currentRowMaxHeight := 0, columnShift := 0 }).2.prevRowsTotalHeight
          + ((layoutCells cfg cfg.entries 0
              { currentRowNumber := 1, prevRowsTotalHeight := 0,
                currentRowMaxHeight := 0, columnShift := 0 }).2.currentRowMaxHeight : ℚ)
          = c.offset + _
      rw [hoff, hEq]
  · intro g hall
    have hgp := layoutCells_gap cfg g cfg.entries 0
      { currentRowNumber := 1, prevRowsTotalHeight := 0,
        currentRowMaxHeight := 0, columnShift := 0 }
      { currentRowNumber := 1, prevRowsTotalHeight := 0,
        currentRowMaxHeight := 0, columnShift := 0 } rfl rfl rfl
    have hall' : ∀ c ∈ (layoutCells { cfg with gridGap := g } cfg.entries 0
        { currentRowNumber := 1, prevRowsTotalHeight := 0,
          currentRowMaxHeight := 0, columnShift := 0 }).1, c.rowNumber = 1 := by
      intro c hc
      have hpair : (c.rowNumber, c.height)
          ∈ (layoutCells { cfg with gridGap := g } cfg.entries 0
            { currentRowNumber := 1, prevRowsTotalHeight := 0,
              currentRowMaxHeight := 0, columnShift := 0 }).1.map
            (fun c => (c.rowNumber, c.height)) :=
        List.mem_map_of_mem _ hc
      rw [hgp.1] at hpair
      obtain ⟨d, hd, heq⟩ := List.mem_map.mp hpair
      have hdrow := hall d hd
      have : d.rowNumber = c.rowNumber := congrArg Prod.fst heq
      rw [← this, hdrow]
    have hnc' := layoutCells_noclose { cfg with gridGap := g } cfg.entries 0
      { currentRowNumber := 1, prevRowsTotalHeight := 0,
        currentRowMaxHeight := 0, columnShift := 0 } hall'
    have hnc := layoutCells_noclose cfg cfg.entries 0
      { currentRowNumber := 1, prevRowsTotalHeight := 0,
        currentRowMaxHeight := 0, columnShift := 0 } hall
    show (layoutCells { cfg with gridGap := g } cfg.entries 0 _).2.prevRowsTotalHeight
          + ((layoutCells { cfg with gridGap := g }
              cfg.entries 0 _).2.currentRowMaxHeight : ℚ)
        = (layoutCells cfg cfg.entries 0 _).2.prevRowsTotalHeight
          + ((layoutCells cfg cfg.entries 0 _).2.currentRowMaxHeight : ℚ)
    rw [hnc'.1, hnc.1, hgp.2.2.1]

theorem totalHeightWitness :
    (∃ M : ℤ,
        M ∈ ((computeLayoutData (some fourColCfg)).cells.filter
            (fun d => d.rowNumber
              = (layoutStep fourColCfg 0 ⟨1, 0, 0, 0⟩ wideItem).1.rowNumber)).map
            (fun d => d.height)
          ∧ (∀ h ∈ ((computeLayoutData (some fourColCfg)).cells.filter
              (fun d => d.rowNumber
                = (layoutStep fourColCfg 0 ⟨1, 0, 0, 0⟩ wideItem).1.rowNumber)).map
              (fun d => d.height), h ≤ M)
          ∧ (computeLayoutData (some fourColCfg)).totalHeight
            = (layoutStep fourColCfg 0 ⟨1, 0, 0, 0⟩ wideItem).1.offset + (M : ℚ))
      ∧ (computeLayoutData (some { fourColCfg with gridGap := 7 })).totalHeight
        = (computeLayoutData (some fourColCfg)).totalHeight := by
  have h := totalHeightCorrect fourColCfg (by norm_num [fourColCfg])
    (by
      intro e he
      rw [show fourColCfg.entries = [wideItem] from rfl] at he
      rw [List.eq_of_mem_singleton he]
      norm_num [wideItem])
  refine ⟨h.1 (layoutStep fourColCfg 0 ⟨1, 0, 0, 0⟩ wideItem).1 rfl, h.2 7 ?_⟩
  intro c hc
  rcases List.mem_singleton.mp hc with rfl
  rfl

end VirtualGrid
